import Mathlib

/-!
# movies-extract.js : a shallow embedding

The script walks the paginated listing of a movie catalog, reads the summary
fields of every listing item, enriches them from the structured-data block of
the item's detail page and finally writes the collected records as JSON or CSV.

What the script obtains from outside (HTTP responses, the DOM tree, the result
of `JSON.parse`, `String.prototype.toLowerCase`, the file system) is an input of
the model; the control flow and the field computations of `scrapeMovies` and
`saveToFile` are transcribed line by line.  Console and log-file output of
`scrapeMovies` is not part of its return value and is left out, every log call
being taken to return; the log lines of `saveToFile` are kept.
-/

namespace MoviesExtract

/-! ## JavaScript values -/

/-- The values the script manipulates: what `JSON.parse` can return, plus
`undefined` (the result of reading a property that is not there).  A number is
carried by its `Number.prototype.toString` rendering; `0` and `-0` both render
as `"0"` and are the only falsy numbers `JSON.parse` can produce. -/
inductive JsVal where
  | undefined
  | null
  | bool (b : Bool)
  | num (shown : String)
  | str (s : String)
  | arr (items : List JsVal)
  | obj (props : List (String × JsVal))

namespace JsVal

/-- ToBoolean: `undefined`, `null`, `false`, `0` and `""` are falsy. -/
def truthy : JsVal → Bool
  | .undefined => false
  | .null => false
  | .bool b => b
  | .num shown => shown != "0"
  | .str s => s != ""
  | .arr _ => true
  | .obj _ => true

/-- The values on which `?.` short-circuits and a plain `.` throws. -/
def nullish : JsVal → Bool
  | .undefined => true
  | .null => true
  | _ => false

/-- The value is a string primitive. -/
def isStr : JsVal → Bool
  | .str _ => true
  | _ => false

/-- Own-property lookup in a parsed object, given as the list of its
properties; of two entries with one key the earlier one is the property. -/
def lookup (key : String) : List (String × JsVal) → JsVal
  | [] => .undefined
  | (k, v) :: rest => if k = key then v else lookup key rest

/-- Whether a parsed object has an own property `key`. -/
def hasKey (key : String) : List (String × JsVal) → Bool
  | [] => false
  | (k, _) :: rest => k = key || hasKey key rest

/-- The value of `v.key` for a `v` that is neither `undefined` nor `null`, for
the data property names the script reads (`director`, `actor`, `name`,
`aggregateRating`, `ratingValue`, `duration`, `genre`), none of which is
inherited from a built-in prototype: an own property of an object, and
`undefined` on anything else. -/
def field (v : JsVal) (key : String) : JsVal :=
  match v with
  | .obj props => lookup key props
  | _ => .undefined

/-- Property read `v.key`: a `TypeError` (`none`) on `undefined` and `null`. -/
def getProp (v : JsVal) (key : String) : Option JsVal :=
  if v.nullish then none else some (v.field key)

/-- Optional chaining `v?.key`: `undefined` on `undefined` and `null`. -/
def optProp (v : JsVal) (key : String) : JsVal :=
  if v.nullish then .undefined else v.field key

mutual
/-- ToString, also the result of calling `.toString()` on a value that is not
nullish.  An array renders as its elements joined by `","`; an object renders as
`[object Object]`, unless it has an own `toString` property, which in parsed
JSON is never callable, and then the conversion throws (`none`). -/
def toStr : JsVal → Option String
  | .undefined => some "undefined"
  | .null => some "null"
  | .bool true => some "true"
  | .bool false => some "false"
  | .num shown => some shown
  | .str s => some s
  | .arr items => (elemStrs items).map (String.intercalate ",")
  | .obj props => if hasKey "toString" props then none else some "[object Object]"
termination_by structural v => v
/-- The texts `Array.prototype.join` puts between the separators: the empty
string for `undefined` and `null`, ToString for the rest. -/
def elemStrs : List JsVal → Option (List String)
  | [] => some []
  | x :: rest =>
    match (match x with
           | .undefined => some ""
           | .null => some ""
           | v => toStr v), elemStrs rest with
    | some a, some b => some (a :: b)
    | _, _ => none
termination_by structural xs => xs
end

/-- `Array.prototype.join(sep)`. -/
def join (sep : String) (items : List JsVal) : Option String :=
  (elemStrs items).map (String.intercalate sep)

end JsVal

/-! ## String built-ins -/

/-- `haystack.includes(needle)` on character lists. -/
def includesChars (needle : List Char) : List Char → Bool
  | [] => needle.isPrefixOf []
  | c :: cs => needle.isPrefixOf (c :: cs) || includesChars needle cs

/-- `String.prototype.includes`. -/
def includes (haystack needle : String) : Bool :=
  includesChars needle.data haystack.data

/-- `s.replace(pat, "")` for a non-empty string pattern, on character lists:
the first occurrence of `pat` is removed, wherever it is. -/
def removeFirstChars (pat : List Char) : List Char → List Char
  | [] => []
  | c :: cs =>
    if pat.isPrefixOf (c :: cs) then (c :: cs).drop pat.length
    else c :: removeFirstChars pat cs

/-- `s.replace(pat, "")` with a non-empty string `pat`. -/
def removeFirst (s pat : String) : String :=
  String.mk (removeFirstChars pat.data s.data)

/-- `s.replace(/"/g, "'")`: every double quote becomes a single quote. -/
def quotesToApostrophes (s : String) : String :=
  String.mk (s.data.map fun c => if c = Char.ofNat 34 then Char.ofNat 39 else c)

/-- The code points `String.prototype.trim` removes (WhiteSpace and
LineTerminator of the language specification). -/
def isTrimChar (c : Char) : Bool :=
  let n := c.toNat
  n = 0x09 || n = 0x0A || n = 0x0B || n = 0x0C || n = 0x0D || n = 0x20 ||
  n = 0xA0 || n = 0x1680 || (0x2000 ≤ n && n ≤ 0x200A) || n = 0x2028 ||
  n = 0x2029 || n = 0x202F || n = 0x205F || n = 0x3000 || n = 0xFEFF

/-- `String.prototype.trim`. -/
def trim (s : String) : String :=
  String.mk ((s.data.dropWhile isTrimChar).reverse.dropWhile isTrimChar).reverse

/-- ASCII lower-casing, the restriction of `toLowerCase` to ASCII text. -/
def asciiLower (s : String) : String :=
  String.mk (s.data.map Char.toLower)

/-! ## What the script reads from outside -/

/-- The built-ins whose result the script only passes on. -/
structure Env where
  /-- The value `JSON.parse` returns for a text, `none` when it throws. -/
  jsonParse : String → Option JsVal
  /-- The function `String.prototype.toLowerCase`. -/
  toLowerCase : String → String

/-- One `.ipc-metadata-list-summary-item` element of a listing page, as far as
the script looks at it: the `textContent` of the nodes its selectors find. -/
structure ItemElement where
  /-- Text of `querySelector("h3")`, `none` when there is no such node. -/
  h3 : Option String
  /-- Texts of `querySelectorAll(".dli-title-metadata span")`, in order. -/
  metadataElements : List String
  /-- Text of `querySelector(".ipc-html-content-inner-div")`. -/
  htmlContentInnerDiv : Option String
  /-- Text of `querySelector('[data-testid="plot"]')`. -/
  plotTestid : Option String
  /-- The `href` of `querySelector("a.ipc-title-link-wrapper")`, `none` when
  there is no such node; a link without address has `href` `""`. -/
  linkElement : Option String

/-- A `script` element of a detail page. -/
structure Script where
  type : String
  textContent : String

/-- Outcome of `axios.get(detailURL)` followed by `new JSDOM(...)`. -/
inductive DetailFetch where
  | failed
  | unparsable
  | loaded (scripts : List Script)

/-- One item of a listing page: the element, together with what its detail
page would answer when asked for. -/
structure PageItem where
  element : ItemElement
  detail : DetailFetch

/-- Outcome of fetching and parsing one listing page. -/
inductive ListFetch where
  | failed
  | unparsable
  | loaded (movieElements : List PageItem)

/-- The object pushed onto `movies`. -/
structure MovieRecord where
  title : JsVal
  releaseYear : JsVal
  rating : JsVal
  directors : JsVal
  cast : JsVal
  plotSummary : JsVal
  duration : JsVal
  genreTags : JsVal

/-! ## The list-item fields (lines 64-78) -/

def BASE_URL : String := "https://www.imdb.com"

/-- The constants of lines 64-78. -/
structure ListFields where
  title : String
  releaseYear : String
  plotSummary : String
  durationFromList : String
  detailURL : Option String

/-- The expression `node?.textContent.trim() || "N/A"`. -/
def textOrNA (node : Option String) : String :=
  match node with
  | none => "N/A"
  | some text => if trim text = "" then "N/A" else trim text

/-- Lines 64-78. -/
def parseListItem (element : ItemElement) : ListFields :=
  { title := textOrNA element.h3
    releaseYear := textOrNA element.metadataElements[0]?
    plotSummary :=
      textOrNA (match element.htmlContentInnerDiv with
                | some text => some text
                | none => element.plotTestid)
    durationFromList := textOrNA element.metadataElements[1]?
    detailURL :=
      match element.linkElement with
      | none => none
      | some href => if href = "" then none else some (BASE_URL ++ href) }

/-! ## Decoding the structured block (lines 111-125) -/

/-- The five `let` variables of lines 80-84. -/
structure Details where
  rating : JsVal
  directors : JsVal
  cast : JsVal
  duration : JsVal
  genreTags : JsVal

/-- The array `members.map((d) => d.name)`; `none` when a member is `null`. -/
def memberNames : List JsVal → Option (List JsVal)
  | [] => some []
  | d :: rest =>
    match d.getProp "name", memberNames rest with
    | some name, some names => some (name :: names)
    | _, _ => none

/-- The string `members.map((d) => d.name).join(", ")`. -/
def namesJoined (members : List JsVal) : Option JsVal :=
  match memberNames members with
  | none => none
  | some names => (JsVal.join ", " names).map JsVal.str

/-- Right-hand side of the assignment to `directors` (lines 111-113); `none`
when it throws.  The pattern `.arr members` is the test `Array.isArray`. -/
def directorsOf (json : JsVal) : Option JsVal :=
  match json.getProp "director" with
  | none => none
  | some (.arr members) => namesJoined members
  | some director =>
    some (if (director.optProp "name").truthy then director.optProp "name"
          else .str "N/A")

/-- Right-hand side of the assignment to `cast` (lines 115-117). -/
def castOf (json : JsVal) : Option JsVal :=
  match json.getProp "actor" with
  | none => none
  | some (.arr members) => namesJoined members
  | some _ => some (.str "N/A")

/-- Right-hand side of the assignment to `rating` (line 119). -/
def ratingOf (json : JsVal) : Option JsVal :=
  match json.getProp "aggregateRating" with
  | none => none
  | some aggregateRating =>
    if (aggregateRating.optProp "ratingValue").nullish then some (.str "N/A")
    else
      match (aggregateRating.optProp "ratingValue").toStr with
      | none => none
      | some s => some (.str (if s = "" then "N/A" else s))

/-- Right-hand side of the assignment to `duration` (lines 120-122): a truthy
value that is not a string has no `replace` method, and the call throws. -/
def durationOf (env : Env) (json : JsVal) (duration : JsVal) : Option JsVal :=
  match json.getProp "duration" with
  | none => none
  | some d =>
    if d.truthy then
      match d with
      | .str s => some (.str (env.toLowerCase (removeFirst s "PT")))
      | _ => none
    else some duration

/-- Right-hand side of the assignment to `genreTags` (lines 123-125). -/
def genreTagsOf (json : JsVal) : Option JsVal :=
  match json.getProp "genre" with
  | none => none
  | some (.arr items) => (JsVal.join ", " items).map JsVal.str
  | some genre => some (if genre.truthy then genre else .str "N/A")

/-- Lines 111-125 run on the variables `st`: the five assignments in source
order.  The first one that throws ends the block and leaves the variables as
they are at that moment (the `catch` of line 130 only logs); the flag tells
whether one threw. -/
def assignFromJson (env : Env) (json : JsVal) (st : Details) : Details × Bool :=
  match directorsOf json with
  | none => (st, true)
  | some directors =>
    match castOf json with
    | none => ({ st with directors := directors }, true)
    | some cast =>
      match ratingOf json with
      | none => ({ st with directors := directors, cast := cast }, true)
      | some rating =>
        match durationOf env json st.duration with
        | none => ({ st with directors := directors, cast := cast, rating := rating }, true)
        | some duration =>
          match genreTagsOf json with
          | none =>
            ({ st with directors := directors, cast := cast, rating := rating,
                       duration := duration }, true)
          | some genreTags =>
            ({ rating := rating, directors := directors, cast := cast,
               duration := duration, genreTags := genreTags }, false)

/-! ## Enrichment from the detail page (lines 86-133) -/

/-- The condition of lines 99-102. -/
def isMovieBlock (script : Script) : Bool :=
  script.type = "application/ld+json" &&
    includes script.textContent "\"@type\":\"Movie\""

/-- The loop of lines 98-129: the first script that passes the condition is
parsed; a parse error breaks out of the loop, a parsed block is decoded and the
loop is left as well. -/
def scanScripts (env : Env) : List Script → Details → Details × Bool
  | [], st => (st, false)
  | script :: rest, st =>
    if isMovieBlock script then
      match env.jsonParse script.textContent with
      | none => (st, false)
      | some json => assignFromJson env json st
    else scanScripts env rest st

/-- Lines 86-133: nothing happens without a detail address; a failed fetch or
an unparsable page is caught and leaves the variables untouched. -/
def enrich (env : Env) (detailURL : Option String) (detail : DetailFetch)
    (st : Details) : Details :=
  match detailURL with
  | none => st
  | some _ =>
    match detail with
    | .failed => st
    | .unparsable => st
    | .loaded scripts => (scanScripts env scripts st).1

/-- The initial values of lines 80-84. -/
def initialDetails (durationFromList : String) : Details :=
  { rating := .str "N/A", directors := .str "N/A", cast := .str "N/A",
    duration := .str durationFromList, genreTags := .str "N/A" }

/-- Lines 64-144 for one element: the record that is pushed. -/
def extractMovie (env : Env) (element : ItemElement) (detail : DetailFetch) :
    MovieRecord :=
  let item := parseListItem element
  let d := enrich env item.detailURL detail (initialDetails item.durationFromList)
  { title := .str item.title
    releaseYear := .str item.releaseYear
    rating := d.rating
    directors := d.directors
    cast := d.cast
    plotSummary := .str item.plotSummary
    duration := d.duration
    genreTags := d.genreTags }

/-! ## The loops of `scrapeMovies` (lines 21-155) -/

/-- The `for` loop of lines 60-151 over the elements of one page.  The body of
the per-item `try` reaches the push of line 135 for every element: lines 64-78
are total on an element (`parseListItem`) and lines 86-133 are enclosed in the
inner `try`, whose handler only logs (`enrich`).  The handler of lines 147-150
is therefore entered only when a log call itself throws, and log calls are
taken to return throughout this model. -/
def processPage (env : Env) (maxCount : Nat) :
    List PageItem → List MovieRecord → List MovieRecord
  | [], movies => movies
  | item :: rest, movies =>
    if movies.length ≥ maxCount then movies
    else
      processPage env maxCount rest
        (movies ++ [extractMovie env item.element item.detail])

/-- The `while` loop of lines 25-153.  `catalog page` is what fetching listing
page number `page` gives; `fuel` bounds the number of iterations of the loop
body, and `none` means the loop is still running after `fuel` iterations. -/
def scrapeLoop (env : Env) (catalog : Nat → ListFetch) (maxCount : Nat) :
    Nat → Nat → List MovieRecord → Option (List MovieRecord)
  | fuel, page, movies =>
    if movies.length < maxCount then
      match fuel with
      | 0 => none
      | fuel + 1 =>
        match catalog page with
        | .failed => some movies
        | .unparsable => some movies
        | .loaded movieElements =>
          if movieElements.length = 0 then some movies
          else
            scrapeLoop env catalog maxCount fuel (page + 1)
              (processPage env maxCount movieElements movies)
    else some movies

/-- The function `scrapeMovies(genre, maxCount)`, the listing pages of the genre
being given by `catalog`. -/
def scrapeMovies (env : Env) (catalog : Nat → ListFetch) (maxCount fuel : Nat) :
    Option (List MovieRecord) :=
  scrapeLoop env catalog maxCount fuel 1 []

/-! ## Reference notions for the pagination claims -/

/-- The records of the items of a page, in item order; every item parses
(see `processPage`). -/
def parsedRecords (env : Env) (items : List PageItem) : List MovieRecord :=
  items.map fun item => extractMovie env item.element item.detail

/-- A listing page that ends the run: a failed fetch, an unparsable page or a
page without items. -/
def endsRun : ListFetch → Bool
  | .failed => true
  | .unparsable => true
  | .loaded movieElements => movieElements.isEmpty

/-- A record whose detail-only fields were left alone by the detail page:
rating, directors, cast and genre tags at the sentinel, duration at the
list-page duration of `element`. -/
def listOnly (element : ItemElement) (r : MovieRecord) : Prop :=
  r.rating = .str "N/A" ∧ r.directors = .str "N/A" ∧ r.cast = .str "N/A" ∧
    r.genreTags = .str "N/A" ∧ r.duration = .str (parseListItem element).durationFromList

/-! ## `saveToFile` (lines 157-194) and the format choice of `main` -/

/-- What `saveToFile` does to the outside, in order. -/
inductive Effect where
  /-- The call `fs.writeFileSync(path, content, "utf-8")` went through. -/
  | writeFile (path content : String)
  /-- The call `log(msg)`, without the time stamp `log` puts in front;
  `errorLog(msg)` is `log("ERROR: " + msg)`. -/
  | log (msg : String)
deriving DecidableEq

/-- What `saveToFile` takes from its environment. -/
structure SaveEnv where
  /-- The text `JSON.stringify(data, null, 2)`. -/
  stringify : List MovieRecord → String
  /-- The call `fs.writeFileSync(path, content)`: `none` when it returns,
  `some message` when it throws. -/
  writeFileSync : String → String → Option String
  /-- The `message` of the `TypeError` thrown while a row is built. -/
  typeErrorMessage : String

/-- The header line of the table. -/
def csvHeader : String :=
  String.intercalate ","
    ["title", "releaseYear", "rating", "duration", "genreTags", "plotSummary",
     "directors", "cast"]

/-- The template literal that puts a text between double quotes. -/
def quoted (s : String) : String :=
  "\"" ++ s ++ "\""

/-- The call `m.plotSummary.replace(/"/g, "'")`, which throws on anything but
a string. -/
def plotReplaced : JsVal → Option String
  | .str s => some (quotesToApostrophes s)
  | _ => none

/-- One row of the table (lines 175-184); `none` when building it throws. -/
def csvRow (m : MovieRecord) : Option String :=
  match m.title.toStr, m.genreTags.toStr, plotReplaced m.plotSummary,
        m.directors.toStr, m.cast.toStr with
  | some title, some genreTags, some plotSummary, some directors, some cast =>
    JsVal.join ","
      [.str (quoted title), m.releaseYear, m.rating, m.duration,
       .str (quoted genreTags), .str (quoted plotSummary), .str (quoted directors),
       .str (quoted cast)]
  | _, _, _, _, _ => none

/-- The rows `data.map(...)`; `none` when one of them throws. -/
def csvRows : List MovieRecord → Option (List String)
  | [] => some []
  | m :: rest =>
    match csvRow m, csvRows rest with
    | some row, some rows => some (row :: rows)
    | _, _ => none

/-- The text `csv` of lines 163-186. -/
def csvText (data : List MovieRecord) : Option String :=
  (csvRows data).map fun rows => String.intercalate "\n" (csvHeader :: rows)

/-- The function `saveToFile(data, format)`, called with both arguments as
`main` does. -/
def saveToFile (senv : SaveEnv) (data : List MovieRecord) (format : String) :
    List Effect :=
  if format = "json" then
    match senv.writeFileSync "output.json" (senv.stringify data) with
    | none =>
      [.writeFile "output.json" (senv.stringify data), .log "File saved to output.json"]
    | some message => [.log ("ERROR: Failed to save file: " ++ message)]
  else if format = "csv" then
    match csvText data with
    | none => [.log ("ERROR: Failed to save file: " ++ senv.typeErrorMessage)]
    | some csv =>
      match senv.writeFileSync "output.csv" csv with
      | none => [.writeFile "output.csv" csv, .log "File saved to output.csv"]
      | some message => [.log ("ERROR: Failed to save file: " ++ message)]
  else []

/-- The constant `format` of `main` (line 199), from the optional third
command-line argument. -/
def mainFormat (arg : Option String) : String :=
  if arg = some "csv" then "csv" else "json"

/-- A text between double quotes in which every double quote of the text is
escaped by doubling it, the escaping the specification asks of the quoted
columns. -/
def escapedQuoted (s : String) : String :=
  "\"" ++ String.mk (s.data.flatMap fun c =>
    if c = Char.ofNat 34 then [Char.ofNat 34, Char.ofNat 34] else [c]) ++ "\""

/-- Removal of a leading `PT` only, the reading of the duration rule that
strips the designator at the start of the text and nowhere else. -/
def dropLeadingPT (s : String) : String :=
  if "PT".data.isPrefixOf s.data then String.mk (s.data.drop 2) else s

/-! ## Predicates on variables and records -/

/-- A value that is a string, or at least truthy: what `x || "N/A"` and a
joined list can leave in a variable. -/
def JsVal.stringOrTruthy (v : JsVal) : Bool :=
  v.isStr || v.truthy

/-- The shape the five variables of lines 80-84 keep throughout. -/
def Details.shaped (d : Details) : Prop :=
  d.rating.isStr = true ∧ d.cast.isStr = true ∧ d.duration.isStr = true ∧
    d.directors.stringOrTruthy = true ∧ d.genreTags.stringOrTruthy = true

/-- The eight fields of a record, in the order of the pushed object. -/
def MovieRecord.fields (r : MovieRecord) : List JsVal :=
  [r.title, r.releaseYear, r.rating, r.directors, r.cast, r.plotSummary, r.duration,
   r.genreTags]

/-- What holds of every pushed record: six fields are strings, `directors`
and `genreTags` are strings or truthy values, and no field is `undefined` or
`null`. -/
def MovieRecord.fieldsPresent (r : MovieRecord) : Prop :=
  r.title.isStr = true ∧ r.releaseYear.isStr = true ∧ r.rating.isStr = true ∧
    r.cast.isStr = true ∧ r.plotSummary.isStr = true ∧ r.duration.isStr = true ∧
    r.directors.stringOrTruthy = true ∧ r.genreTags.stringOrTruthy = true ∧
    ∀ v ∈ r.fields, v ≠ JsVal.undefined ∧ v ≠ JsVal.null

/-- The rule a text field of the list item follows: the sentinel when the node
is missing or its trimmed text is empty, the trimmed text otherwise. -/
def TextRule (node : Option String) (value : String) : Prop :=
  (node = none → value = "N/A") ∧
    (∀ text, node = some text → trim text = "" → value = "N/A") ∧
    (∀ text, node = some text → trim text ≠ "" → value = trim text)

/-! ## Sample inputs -/

/-- The listing item of the unit tests. -/
def testItem : ItemElement :=
  { h3 := some "The Test Movie"
    metadataElements := ["2023", "2h"]
    htmlContentInnerDiv := none
    plotTestid := some "This is a sample plot summary for the movie."
    linkElement := some "/title/tt1234567/" }

/-- A listing item whose heading holds only blanks and whose title link has no
address. -/
def blankItem : ItemElement :=
  { h3 := some "   "
    metadataElements := []
    htmlContentInnerDiv := some " "
    plotTestid := some "A plot."
    linkElement := some "" }

/-- The structured block of the unit tests. -/
def testBlock : JsVal :=
  .obj [("@type", .str "Movie"), ("name", .str "Test JSON Movie"),
        ("director", .obj [("name", .str "Jane Doe")]),
        ("actor", .arr [.obj [("name", .str "Actor A")], .obj [("name", .str "Actor B")]]),
        ("aggregateRating", .obj [("ratingValue", .str "8.7")]),
        ("duration", .str "PT2H"),
        ("genre", .arr [.str "Action", .str "Thriller"]),
        ("description", .str "Test description from JSON.")]

def testBlockText : String :=
  "\x7b\"@type\":\"Movie\",\"name\":\"Test JSON Movie\",\"director\":\x7b\"name\":\"Jane Doe\"\x7d,\"actor\":[\x7b\"name\":\"Actor A\"\x7d,\x7b\"name\":\"Actor B\"\x7d],\"aggregateRating\":\x7b\"ratingValue\":\"8.7\"\x7d,\"duration\":\"PT2H\",\"genre\":[\"Action\",\"Thriller\"],\"description\":\"Test description from JSON.\"\x7d"

/-- A block whose duration is a number of minutes. -/
def minutesBlock : JsVal :=
  .obj [("@type", .str "Movie"),
        ("director", .obj [("name", .str "Jane Doe")]),
        ("actor", .arr [.obj [("name", .str "Actor A")]]),
        ("aggregateRating", .obj [("ratingValue", .num "8.7")]),
        ("duration", .num "120"),
        ("genre", .arr [.str "Action"])]

def minutesBlockText : String :=
  "\x7b\"@type\":\"Movie\",\"director\":\x7b\"name\":\"Jane Doe\"\x7d,\"actor\":[\x7b\"name\":\"Actor A\"\x7d],\"aggregateRating\":\x7b\"ratingValue\":8.7\x7d,\"duration\":120,\"genre\":[\"Action\"]\x7d"

/-- A block whose duration is a number of seconds and whose director is a list. -/
def secondsBlock : JsVal :=
  .obj [("@type", .str "Movie"),
        ("director", .arr [.obj [("name", .str "Jane Doe")]]),
        ("actor", .arr [.obj [("name", .str "Actor A")], .obj [("name", .str "Actor B")]]),
        ("duration", .num "7200"),
        ("genre", .arr [.str "Action", .str "Thriller"])]

/-- A block whose genre is an object. -/
def genreObjectBlock : JsVal :=
  .obj [("@type", .str "Movie"), ("genre", .obj [("name", .str "Drama")])]

def genreObjectBlockText : String :=
  "\x7b\"@type\":\"Movie\",\"genre\":\x7b\"name\":\"Drama\"\x7d\x7d"

/-- A block whose duration text has `PT` after its first character. -/
def innerDesignatorBlock : JsVal :=
  .obj [("@type", .str "Movie"), ("duration", .str "APT30M")]

def innerDesignatorBlockText : String :=
  "\x7b\"@type\":\"Movie\",\"duration\":\"APT30M\"\x7d"

/-- A block text that carries the marker and is not JSON. -/
def brokenBlockText : String :=
  "\x7b\"@type\":\"Movie\", invalid json \x7d"

/-- A `JSON.parse` that knows the sample texts and rejects every other text,
with ASCII lower-casing. -/
def sampleEnv : Env :=
  { jsonParse := fun text =>
      if text = testBlockText then some testBlock
      else if text = minutesBlockText then some minutesBlock
      else if text = genreObjectBlockText then some genreObjectBlock
      else if text = innerDesignatorBlockText then some innerDesignatorBlock
      else none
    toLowerCase := asciiLower }

/-- A detail page with one ordinary script followed by one structured block. -/
def detailPage (blockText : String) : DetailFetch :=
  .loaded [{ type := "text/javascript", textContent := "var a = 1;" },
           { type := "application/ld+json", textContent := blockText }]

/-- A catalog of two listing pages and nothing after them. -/
def shortCatalog : Nat → ListFetch
  | 1 => .loaded [⟨testItem, detailPage testBlockText⟩, ⟨blankItem, .failed⟩]
  | 2 => .loaded [⟨testItem, .unparsable⟩]
  | _ => .loaded []

/-- The listing pages of `shortCatalog` before its empty page. -/
def shortCatalogPages : List (List PageItem) :=
  [[⟨testItem, detailPage testBlockText⟩, ⟨blankItem, .failed⟩],
   [⟨testItem, .unparsable⟩]]

/-- A catalog without end: every listing page holds the test item. -/
def endlessCatalog : Nat → ListFetch :=
  fun _ => .loaded [⟨testItem, detailPage testBlockText⟩]

/-- A record whose title holds double quotes. -/
def quotedTitleRecord : MovieRecord :=
  { title := .str "The \"Best\" Movie"
    releaseYear := .str "2023"
    rating := .str "8.7"
    directors := .str "Jane Doe"
    cast := .str "Actor A, Actor B"
    plotSummary := .str "A \"sample\" plot."
    duration := .str "2h"
    genreTags := .str "Action, Thriller" }

/-- A file system on which every write goes through. -/
def sampleSaveEnv : SaveEnv :=
  { stringify := fun _ => "[]"
    writeFileSync := fun _ _ => none
    typeErrorMessage := "Cannot read properties of undefined" }

/-! ## The page loop -/

theorem parsedRecords_cons (env : Env) (item : PageItem) (rest : List PageItem) :
    parsedRecords env (item :: rest)
      = extractMovie env item.element item.detail :: parsedRecords env rest := by
  simp [parsedRecords]

theorem parsedRecords_append (env : Env) (xs ys : List PageItem) :
    parsedRecords env (xs ++ ys) = parsedRecords env xs ++ parsedRecords env ys := by
  simp [parsedRecords]

/-- The page loop appends the records of the parsing items, cut at the target. -/
theorem processPage_eq (env : Env) (maxCount : Nat) (items : List PageItem) :
    ∀ movies : List MovieRecord,
      processPage env maxCount items movies
        = movies ++ (parsedRecords env items).take (maxCount - movies.length) := by
  induction items with
  | nil => intro movies; simp [processPage, parsedRecords]
  | cons item rest ih =>
    intro movies
    unfold processPage
    by_cases hfull : movies.length ≥ maxCount
    · have h0 : maxCount - movies.length = 0 := by omega
      simp [hfull, h0]
    · rw [if_neg hfull]
      simp only [ih, parsedRecords_cons, List.length_append, List.length_singleton]
      obtain ⟨k, hk⟩ : ∃ k, maxCount - movies.length = k + 1 :=
        ⟨maxCount - movies.length - 1, by omega⟩
      have hk2 : maxCount - (movies.length + 1) = k := by omega
      rw [hk, hk2, List.take_succ_cons]
      simp

/-! ## The pagination loop -/

/-- A run over a catalog whose pages `page`, `page + 1`, ... are the non-empty
pages `pages`, followed by a page that ends the run: with enough fuel the loop
returns the collected records extended by the parsed records of `pages`, cut at
the target. -/
theorem scrapeLoop_finite (env : Env) (catalog : Nat → ListFetch) (maxCount : Nat) :
    ∀ (pages : List (List PageItem)) (fuel page : Nat) (movies : List MovieRecord),
      (∀ i items, pages[i]? = some items → catalog (page + i) = .loaded items) →
      (∀ items ∈ pages, items ≠ []) →
      endsRun (catalog (page + pages.length)) = true →
      pages.length + 1 ≤ fuel →
      scrapeLoop env catalog maxCount fuel page movies
        = some (movies ++ (parsedRecords env pages.flatten).take (maxCount - movies.length)) := by
  intro pages
  induction pages with
  | nil =>
    intro fuel page movies _ _ hend hfuel
    unfold scrapeLoop
    by_cases hlt : movies.length < maxCount
    · rw [if_pos hlt]
      obtain ⟨f, rfl⟩ : ∃ f, fuel = f + 1 := ⟨fuel - 1, by simp at hfuel; omega⟩
      simp only [List.length_nil, Nat.add_zero] at hend
      cases hc : catalog page with
      | failed => simp [parsedRecords]
      | unparsable => simp [parsedRecords]
      | loaded els =>
        rw [hc] at hend
        have : els = [] := by simpa [endsRun] using hend
        subst this
        simp [parsedRecords]
    · rw [if_neg hlt]
      have h0 : maxCount - movies.length = 0 := by omega
      simp [h0]
  | cons items rest ih =>
    intro fuel page movies hpages hne hend hfuel
    unfold scrapeLoop
    by_cases hlt : movies.length < maxCount
    · rw [if_pos hlt]
      obtain ⟨f, rfl⟩ : ∃ f, fuel = f + 1 := ⟨fuel - 1, by simp at hfuel; omega⟩
      have hc : catalog page = .loaded items := by
        have := hpages 0 items (by simp)
        simpa using this
      have hitems : items ≠ [] := hne items (by simp)
      have hlen : items.length ≠ 0 := by
        intro h; exact hitems (List.length_eq_zero.mp h)
      simp only [hc, hlen, if_false]
      rw [ih f (page + 1) (processPage env maxCount items movies)
        (by
          intro i its hi
          have := hpages (i + 1) its (by simpa using hi)
          rw [← this]; congr 1; omega)
        (by intro its hits; exact hne its (List.mem_cons_of_mem _ hits))
        (by
          have : page + 1 + rest.length = page + (items :: rest).length := by
            simp; omega
          rw [this]; exact hend)
        (by simp at hfuel; omega)]
      rw [processPage_eq]
      simp only [List.flatten_cons, parsedRecords_append, List.append_assoc, List.length_append,
        List.length_take]
      congr 2
      rw [List.take_append_eq_append_take]
      congr 2
      omega
    · rw [if_neg hlt]
      have h0 : maxCount - movies.length = 0 := by omega
      simp [h0]

theorem parsedRecords_flatten (env : Env) (pages : List (List PageItem)) :
    parsedRecords env pages.flatten = (pages.map (parsedRecords env)).flatten := by
  induction pages with
  | nil => simp [parsedRecords]
  | cons items rest ih => simp [parsedRecords_append, ih]

/-- A non-empty page makes the collection grow while the target is not
reached: its first item is pushed. -/
theorem processPage_grows (env : Env) (maxCount : Nat) (items : List PageItem)
    (movies : List MovieRecord) (hlt : movies.length < maxCount) (hne : items ≠ []) :
    movies.length < (processPage env maxCount items movies).length := by
  have hpos : 0 < (parsedRecords env items).length := by
    cases items with
    | nil => exact absurd rfl hne
    | cons item rest => simp [parsedRecords]
  rw [processPage_eq, List.length_append, List.length_take]
  omega

/-- The page loop collects one record per item until the target is reached. -/
theorem processPage_length (env : Env) (maxCount : Nat) (items : List PageItem)
    (movies : List MovieRecord) (hle : movies.length ≤ maxCount) :
    (processPage env maxCount items movies).length
      = min maxCount (movies.length + items.length) := by
  rw [processPage_eq, List.length_append, List.length_take]
  simp only [parsedRecords, List.length_map]
  omega

/-- One iteration of the `while` loop below the target: it returns on a page
that ends the run, and otherwise goes on to the next page with a strictly
longer collection. -/
theorem scrapeLoop_iteration (env : Env) (catalog : Nat → ListFetch) (maxCount : Nat)
    (fuel page : Nat) (movies : List MovieRecord) (hlt : movies.length < maxCount) :
    (endsRun (catalog page) = true
        ∧ scrapeLoop env catalog maxCount (fuel + 1) page movies = some movies)
      ∨ ∃ items, catalog page = .loaded items
          ∧ movies.length < (processPage env maxCount items movies).length
          ∧ scrapeLoop env catalog maxCount (fuel + 1) page movies
              = scrapeLoop env catalog maxCount fuel (page + 1)
                  (processPage env maxCount items movies) := by
  rw [scrapeLoop, if_pos hlt]
  cases hc : catalog page with
  | failed => exact Or.inl ⟨rfl, rfl⟩
  | unparsable => exact Or.inl ⟨rfl, rfl⟩
  | loaded els =>
    by_cases hlen : els.length = 0
    · have hnil : els = [] := List.length_eq_zero.mp hlen
      subst hnil
      exact Or.inl ⟨rfl, rfl⟩
    · have hne : els ≠ [] := fun h => hlen (by simp [h])
      exact Or.inr ⟨els, rfl, processPage_grows env maxCount els movies hlt hne,
        by simp [hlen]⟩

/-- The loop stops within as many iterations as records are still missing. -/
theorem scrapeLoop_terminates (env : Env) (catalog : Nat → ListFetch) (maxCount : Nat) :
    ∀ (fuel page : Nat) (movies : List MovieRecord),
      maxCount - movies.length ≤ fuel →
      ∃ result, scrapeLoop env catalog maxCount fuel page movies = some result := by
  intro fuel
  induction fuel with
  | zero =>
    intro page movies hfuel
    unfold scrapeLoop
    have : ¬ movies.length < maxCount := by omega
    exact ⟨movies, by rw [if_neg this]⟩
  | succ f ih =>
    intro page movies hfuel
    by_cases hlt : movies.length < maxCount
    · rcases scrapeLoop_iteration env catalog maxCount f page movies hlt with
        ⟨_, hret⟩ | ⟨items, _, hgrow, hstep⟩
      · exact ⟨movies, hret⟩
      · rw [hstep]
        exact ih (page + 1) _ (by omega)
    · unfold scrapeLoop
      exact ⟨movies, by rw [if_neg hlt]⟩

/-! ## The script loop -/

theorem scanScripts_skip (env : Env) (pre rest : List Script) (st : Details)
    (hpre : ∀ s ∈ pre, isMovieBlock s = false) :
    scanScripts env (pre ++ rest) st = scanScripts env rest st := by
  induction pre with
  | nil => rfl
  | cons s pre ih =>
    have hs : isMovieBlock s = false := hpre s (by simp)
    simp only [List.cons_append, scanScripts, hs]
    exact ih (fun x hx => hpre x (List.mem_cons_of_mem _ hx))

theorem scanScripts_no_block (env : Env) (scripts : List Script) (st : Details)
    (h : ∀ s ∈ scripts, isMovieBlock s = false) :
    scanScripts env scripts st = (st, false) := by
  have := scanScripts_skip env scripts [] st h
  simpa [scanScripts] using this

theorem scanScripts_bad_block (env : Env) (pre post : List Script) (bad : Script)
    (st : Details) (hpre : ∀ s ∈ pre, isMovieBlock s = false)
    (hbad : isMovieBlock bad = true) (hparse : env.jsonParse bad.textContent = none) :
    scanScripts env (pre ++ bad :: post) st = (st, false) := by
  rw [scanScripts_skip env pre _ st hpre]
  simp [scanScripts, hbad, hparse]

theorem scanScripts_selected (env : Env) (pre post : List Script) (script : Script)
    (json : JsVal) (st : Details) (hpre : ∀ s ∈ pre, isMovieBlock s = false)
    (hsel : isMovieBlock script = true)
    (hparse : env.jsonParse script.textContent = some json) :
    scanScripts env (pre ++ script :: post) st = assignFromJson env json st := by
  rw [scanScripts_skip env pre _ st hpre]
  simp [scanScripts, hsel, hparse]

/-! ## The shape of the decoded values -/

theorem namesJoined_isStr (members : List JsVal) (v : JsVal)
    (h : namesJoined members = some v) : v.isStr = true := by
  unfold namesJoined at h
  cases hm : memberNames members with
  | none => simp [hm] at h
  | some names =>
    simp only [hm] at h
    cases hj : JsVal.join ", " names with
    | none => simp [hj] at h
    | some s =>
      simp only [hj, Option.map_some', Option.some.injEq] at h
      subst h; rfl

theorem directorsOf_shape (json v : JsVal) (h : directorsOf json = some v) :
    v.stringOrTruthy = true := by
  unfold directorsOf at h
  split at h
  · simp at h
  · simp [JsVal.stringOrTruthy, namesJoined_isStr _ _ h]
  · simp only [Option.some.injEq] at h
    subst h
    split
    · rename_i ht; simp [JsVal.stringOrTruthy, ht]
    · simp [JsVal.stringOrTruthy, JsVal.isStr]

theorem castOf_shape (json v : JsVal) (h : castOf json = some v) : v.isStr = true := by
  unfold castOf at h
  split at h
  · simp at h
  · exact namesJoined_isStr _ _ h
  · simp only [Option.some.injEq] at h
    subst h; rfl

theorem ratingOf_shape (json v : JsVal) (h : ratingOf json = some v) : v.isStr = true := by
  unfold ratingOf at h
  split at h
  · simp at h
  · split at h
    · simp only [Option.some.injEq] at h
      subst h; rfl
    · split at h
      · simp at h
      · simp only [Option.some.injEq] at h
        subst h; rfl

theorem durationOf_shape (env : Env) (json duration v : JsVal)
    (hd : duration.isStr = true) (h : durationOf env json duration = some v) :
    v.isStr = true := by
  unfold durationOf at h
  split at h
  · simp at h
  · split at h
    · split at h
      · simp only [Option.some.injEq] at h
        subst h; rfl
      · simp at h
    · simp only [Option.some.injEq] at h
      subst h; exact hd

theorem genreTagsOf_shape (json v : JsVal) (h : genreTagsOf json = some v) :
    v.stringOrTruthy = true := by
  unfold genreTagsOf at h
  split at h
  · simp at h
  · rename_i items _
    cases hj : JsVal.join ", " items with
    | none => simp [hj] at h
    | some s =>
      simp only [hj, Option.map_some', Option.some.injEq] at h
      subst h; rfl
  · simp only [Option.some.injEq] at h
    subst h
    split
    · rename_i ht; simp [JsVal.stringOrTruthy, ht]
    · simp [JsVal.stringOrTruthy, JsVal.isStr]

theorem assignFromJson_shaped (env : Env) (json : JsVal) (st : Details)
    (hst : st.shaped) : (assignFromJson env json st).1.shaped := by
  obtain ⟨h1, h2, h3, h4, h5⟩ := hst
  unfold assignFromJson
  cases hd : directorsOf json with
  | none => exact ⟨h1, h2, h3, h4, h5⟩
  | some directors =>
    have sd := directorsOf_shape _ _ hd
    cases hc : castOf json with
    | none => exact ⟨h1, h2, h3, sd, h5⟩
    | some cast =>
      have sc := castOf_shape _ _ hc
      cases hr : ratingOf json with
      | none => exact ⟨h1, sc, h3, sd, h5⟩
      | some rating =>
        have sr := ratingOf_shape _ _ hr
        cases hu : durationOf env json st.duration with
        | none => exact ⟨sr, sc, h3, sd, h5⟩
        | some duration =>
          have su := durationOf_shape env _ _ _ h3 hu
          cases hg : genreTagsOf json with
          | none => exact ⟨sr, sc, su, sd, h5⟩
          | some genreTags => exact ⟨sr, sc, su, sd, genreTagsOf_shape _ _ hg⟩

theorem scanScripts_shaped (env : Env) (scripts : List Script) (st : Details)
    (hst : st.shaped) : (scanScripts env scripts st).1.shaped := by
  induction scripts with
  | nil => exact hst
  | cons s rest ih =>
    unfold scanScripts
    split
    · split
      · exact hst
      · exact assignFromJson_shaped env _ st hst
    · exact ih

theorem enrich_shaped (env : Env) (detailURL : Option String) (detail : DetailFetch)
    (st : Details) (hst : st.shaped) : (enrich env detailURL detail st).shaped := by
  unfold enrich
  cases detailURL with
  | none => exact hst
  | some url =>
    cases detail with
    | failed => exact hst
    | unparsable => exact hst
    | loaded scripts => exact scanScripts_shaped env scripts st hst

theorem stringOrTruthy_not_nullish (v : JsVal) (h : v.stringOrTruthy = true) :
    v ≠ .undefined ∧ v ≠ .null := by
  cases v <;> simp_all [JsVal.stringOrTruthy, JsVal.isStr, JsVal.truthy]

theorem isStr_not_nullish (v : JsVal) (h : v.isStr = true) :
    v ≠ .undefined ∧ v ≠ .null := by
  cases v <;> simp_all [JsVal.isStr]

/-! ## Pagination: order, bound and termination -/

/-- C1: over a finite catalog (the non-empty listing pages `pages`, numbered
from 1, followed by a page that is empty or whose fetch fails) `scrapeMovies`
returns, for every target count, exactly the first `min maxCount N` records of
the page-then-item concatenation of the records of the items that parse, `N`
being their number; the result is never longer than the target, and a catalog
with at most `maxCount` such items is returned whole. -/
theorem scrapeMovies_returns_first_records (env : Env) (catalog : Nat → ListFetch)
    (maxCount : Nat) (pages : List (List PageItem)) (fuel : Nat)
    (hpages : ∀ i items, pages[i]? = some items → catalog (i + 1) = .loaded items)
    (hne : ∀ items ∈ pages, items ≠ [])
    (hend : endsRun (catalog (pages.length + 1)) = true)
    (hfuel : pages.length + 1 ≤ fuel) :
    scrapeMovies env catalog maxCount fuel
        = some (((pages.map (parsedRecords env)).flatten).take
            (min maxCount ((pages.map (parsedRecords env)).flatten).length))
      ∧ (∀ movies, scrapeMovies env catalog maxCount fuel = some movies →
          movies.length ≤ maxCount)
      ∧ (((pages.map (parsedRecords env)).flatten).length ≤ maxCount →
          scrapeMovies env catalog maxCount fuel
            = some ((pages.map (parsedRecords env)).flatten)) := by
  have hrun : scrapeMovies env catalog maxCount fuel
      = some (((pages.map (parsedRecords env)).flatten).take maxCount) := by
    unfold scrapeMovies
    rw [scrapeLoop_finite env catalog maxCount pages fuel 1 []
      (by intro i items hi; rw [Nat.add_comm]; exact hpages i items hi) hne
      (by rw [Nat.add_comm]; exact hend) hfuel]
    simp [parsedRecords_flatten]
  refine ⟨?_, ?_, ?_⟩
  · rw [hrun]
    congr 1
    rw [List.take_eq_take]
    simp
  · intro movies hm
    rw [hrun] at hm
    cases hm
    simp [List.length_take]
  · intro hle
    rw [hrun, List.take_of_length_le hle]

/-- C1 at a sample: the two-page catalog, target 5. -/
theorem scrapeMovies_returns_first_records_witness :
    scrapeMovies sampleEnv shortCatalog 5 3
        = some (((shortCatalogPages.map (parsedRecords sampleEnv)).flatten).take
            (min 5 ((shortCatalogPages.map (parsedRecords sampleEnv)).flatten).length))
      ∧ (∀ movies, scrapeMovies sampleEnv shortCatalog 5 3 = some movies →
          movies.length ≤ 5)
      ∧ (((shortCatalogPages.map (parsedRecords sampleEnv)).flatten).length ≤ 5 →
          scrapeMovies sampleEnv shortCatalog 5 3
            = some ((shortCatalogPages.map (parsedRecords sampleEnv)).flatten)) :=
  scrapeMovies_returns_first_records sampleEnv shortCatalog 5 shortCatalogPages 3
    (by
      intro i items hi
      match i with
      | 0 => simp [shortCatalogPages] at hi; subst hi; rfl
      | 1 => simp [shortCatalogPages] at hi; subst hi; rfl
      | i + 2 => simp [shortCatalogPages] at hi)
    (by intro items hitems; simp [shortCatalogPages] at hitems; rcases hitems with rfl | rfl <;> simp)
    (by rfl)
    (by simp [shortCatalogPages])

/-- C2: for every target count and every catalog, also one without end whose
listing pages are all non-empty, the pagination loop terminates, within
`maxCount` iterations; and every iteration of the loop (entered below the
target) either ends the run on an empty or failed listing page or goes on to
the next page with strictly more collected records. -/
theorem scrapeMovies_terminates (env : Env) (catalog : Nat → ListFetch)
    (maxCount : Nat) :
    (∀ fuel, maxCount ≤ fuel →
        ∃ movies, scrapeMovies env catalog maxCount fuel = some movies)
      ∧ ∀ fuel page movies, movies.length < maxCount →
          (endsRun (catalog page) = true
              ∧ scrapeLoop env catalog maxCount (fuel + 1) page movies = some movies)
            ∨ ∃ items, catalog page = .loaded items
                ∧ movies.length < (processPage env maxCount items movies).length
                ∧ scrapeLoop env catalog maxCount (fuel + 1) page movies
                    = scrapeLoop env catalog maxCount fuel (page + 1)
                        (processPage env maxCount items movies) := by
  refine ⟨?_, ?_⟩
  · intro fuel hfuel
    exact scrapeLoop_terminates env catalog maxCount fuel 1 [] (by simpa using hfuel)
  · intro fuel page movies hlt
    exact scrapeLoop_iteration env catalog maxCount fuel page movies hlt

/-- C2 at a sample: the catalog without end whose pages all hold the test item,
target 3, stops within 3 iterations, and its first iteration collects a
record. -/
theorem scrapeMovies_terminates_witness :
    (∃ movies, scrapeMovies sampleEnv endlessCatalog 3 3 = some movies)
      ∧ ((endsRun (endlessCatalog 1) = true
            ∧ scrapeLoop sampleEnv endlessCatalog 3 (2 + 1) 1 [] = some [])
          ∨ ∃ items, endlessCatalog 1 = .loaded items
              ∧ ([] : List MovieRecord).length < (processPage sampleEnv 3 items []).length
              ∧ scrapeLoop sampleEnv endlessCatalog 3 (2 + 1) 1 []
                  = scrapeLoop sampleEnv endlessCatalog 3 2 (1 + 1)
                      (processPage sampleEnv 3 items [])) :=
  ⟨(scrapeMovies_terminates sampleEnv endlessCatalog 3).1 3 (Nat.le_refl 3),
   (scrapeMovies_terminates sampleEnv endlessCatalog 3).2 2 1 [] (by decide)⟩

/-! ## Records under failed or partial enrichment -/

theorem initialDetails_shaped (durationFromList : String) :
    (initialDetails durationFromList).shaped :=
  ⟨rfl, rfl, rfl, rfl, rfl⟩

theorem listOnly_of_enrich_eq (env : Env) (element : ItemElement) (detail : DetailFetch)
    (h : enrich env (parseListItem element).detailURL detail
          (initialDetails (parseListItem element).durationFromList)
        = initialDetails (parseListItem element).durationFromList) :
    listOnly element (extractMovie env element detail) := by
  unfold listOnly extractMovie
  simp only [h]
  exact ⟨rfl, rfl, rfl, rfl, rfl⟩

theorem enrich_failed (env : Env) (detailURL : Option String) (st : Details) :
    enrich env detailURL .failed st = st := by
  cases detailURL <;> rfl

theorem enrich_unparsable (env : Env) (detailURL : Option String) (st : Details) :
    enrich env detailURL .unparsable st = st := by
  cases detailURL <;> rfl

theorem enrich_no_block (env : Env) (detailURL : Option String) (scripts : List Script)
    (st : Details) (h : ∀ s ∈ scripts, isMovieBlock s = false) :
    enrich env detailURL (.loaded scripts) st = st := by
  cases detailURL with
  | none => rfl
  | some url => simp [enrich, scanScripts_no_block env scripts st h]

theorem enrich_bad_block (env : Env) (detailURL : Option String)
    (pre post : List Script) (bad : Script) (st : Details)
    (hpre : ∀ s ∈ pre, isMovieBlock s = false) (hbad : isMovieBlock bad = true)
    (hparse : env.jsonParse bad.textContent = none) :
    enrich env detailURL (.loaded (pre ++ bad :: post)) st = st := by
  cases detailURL with
  | none => rfl
  | some url => simp [enrich, scanScripts_bad_block env pre post bad st hpre hbad hparse]

theorem assignFromJson_thrown_genreTags (env : Env) (json : JsVal) (st : Details)
    (h : (assignFromJson env json st).2 = true) :
    (assignFromJson env json st).1.genreTags = st.genreTags := by
  revert h
  unfold assignFromJson
  cases directorsOf json with
  | none => intro _; rfl
  | some directors =>
    cases castOf json with
    | none => intro _; rfl
    | some cast =>
      cases ratingOf json with
      | none => intro _; rfl
      | some rating =>
        cases durationOf env json st.duration with
        | none => intro _; rfl
        | some duration =>
          cases genreTagsOf json with
          | none => intro _; rfl
          | some genreTags => intro h; simp at h

/-- C3, refuted as stated: the block whose duration is the number 120 parses,
the assignment to `duration` throws, and the record that is pushed keeps the
director, cast and rating assigned before the throw instead of the sentinel. -/
theorem extractMovie_keeps_fields_assigned_before_throw :
    sampleEnv.jsonParse minutesBlockText = some minutesBlock
      ∧ (assignFromJson sampleEnv minutesBlock (initialDetails "2h")).2 = true
      ∧ (extractMovie sampleEnv testItem (detailPage minutesBlockText)).directors
          = .str "Jane Doe"
      ∧ (extractMovie sampleEnv testItem (detailPage minutesBlockText)).cast
          = .str "Actor A"
      ∧ (extractMovie sampleEnv testItem (detailPage minutesBlockText)).rating
          = .str "8.7"
      ∧ (extractMovie sampleEnv testItem (detailPage minutesBlockText)).directors
          ≠ .str "N/A" := by
  refine ⟨rfl, rfl, rfl, rfl, rfl, ?_⟩
  have h : (extractMovie sampleEnv testItem (detailPage minutesBlockText)).directors
      = .str "Jane Doe" := rfl
  rw [h]
  intro hne
  exact absurd (JsVal.str.inj hne) (by decide)

/-- Whether or not an assignment throws, each of directors, cast, rating and
duration holds its decoded value when its assignment is reached and goes
through, and the value it had before the block otherwise. -/
theorem assignFromJson_reached (env : Env) (json : JsVal) (st : Details) :
    (assignFromJson env json st).1.directors = (directorsOf json).getD st.directors
      ∧ (assignFromJson env json st).1.cast
          = ((directorsOf json).bind fun _ => castOf json).getD st.cast
      ∧ (assignFromJson env json st).1.rating
          = ((directorsOf json).bind fun _ => (castOf json).bind fun _ =>
              ratingOf json).getD st.rating
      ∧ (assignFromJson env json st).1.duration
          = ((directorsOf json).bind fun _ => (castOf json).bind fun _ =>
              (ratingOf json).bind fun _ => durationOf env json st.duration).getD
              st.duration := by
  unfold assignFromJson
  cases directorsOf json with
  | none => exact ⟨rfl, rfl, rfl, rfl⟩
  | some directors =>
    cases castOf json with
    | none => exact ⟨rfl, rfl, rfl, rfl⟩
    | some cast =>
      cases ratingOf json with
      | none => exact ⟨rfl, rfl, rfl, rfl⟩
      | some rating =>
        cases durationOf env json st.duration with
        | none => exact ⟨rfl, rfl, rfl, rfl⟩
        | some duration =>
          cases genreTagsOf json with
          | none => exact ⟨rfl, rfl, rfl, rfl⟩
          | some genreTags => exact ⟨rfl, rfl, rfl, rfl⟩

theorem extractMovie_selected (env : Env) (element : ItemElement)
    (pre post : List Script) (script : Script) (json : JsVal) (url : String)
    (hurl : (parseListItem element).detailURL = some url)
    (hpre : ∀ s ∈ pre, isMovieBlock s = false) (hsel : isMovieBlock script = true)
    (hparse : env.jsonParse script.textContent = some json) :
    enrich env (parseListItem element).detailURL (.loaded (pre ++ script :: post))
        (initialDetails (parseListItem element).durationFromList)
      = (assignFromJson env json
          (initialDetails (parseListItem element).durationFromList)).1 := by
  rw [hurl]
  simp only [enrich]
  rw [scanScripts_selected env pre post script json _ hpre hsel hparse]

theorem minutesBlock_is_movie_block :
    isMovieBlock { type := "application/ld+json", textContent := minutesBlockText } = true := by
  rfl

theorem minutesBlock_parses :
    sampleEnv.jsonParse minutesBlockText = some minutesBlock := by
  rfl

/-- C3, amended: every item reached below the target appends exactly one
record whatever happens to its detail page, so a page adds one record per item
until the target is reached.  When the detail fetch fails, the detail page
cannot be parsed, or the first qualifying block is not JSON, the record has
rating, directors, cast and genre tags at `"N/A"` and the list-page duration.
When an assignment from the parsed block throws, the record keeps what was
assigned before the throw: each of directors, cast, rating and duration holds
its decoded value if its assignment was reached and went through, and its
initial value (`"N/A"`, the list-page duration) otherwise, and genre tags is
`"N/A"`. -/
theorem failed_enrichment_appends_one_record (env : Env) (element : ItemElement)
    (detail : DetailFetch) (maxCount : Nat) (movies : List MovieRecord)
    (hroom : movies.length < maxCount) :
    processPage env maxCount [⟨element, detail⟩] movies
        = movies ++ [extractMovie env element detail]
      ∧ (∀ items, (processPage env maxCount items movies).length
          = min maxCount (movies.length + items.length))
      ∧ (detail = .failed ∨ detail = .unparsable →
          listOnly element (extractMovie env element detail))
      ∧ (∀ pre bad post, detail = .loaded (pre ++ bad :: post) →
          (∀ s ∈ pre, isMovieBlock s = false) → isMovieBlock bad = true →
          env.jsonParse bad.textContent = none →
          listOnly element (extractMovie env element detail))
      ∧ (∀ pre script post json url, detail = .loaded (pre ++ script :: post) →
          (parseListItem element).detailURL = some url →
          (∀ s ∈ pre, isMovieBlock s = false) → isMovieBlock script = true →
          env.jsonParse script.textContent = some json →
          (assignFromJson env json
            (initialDetails (parseListItem element).durationFromList)).2 = true →
          (extractMovie env element detail).directors
              = (directorsOf json).getD (.str "N/A")
            ∧ (extractMovie env element detail).cast
                = ((directorsOf json).bind fun _ => castOf json).getD (.str "N/A")
            ∧ (extractMovie env element detail).rating
                = ((directorsOf json).bind fun _ => (castOf json).bind fun _ =>
                    ratingOf json).getD (.str "N/A")
            ∧ (extractMovie env element detail).duration
                = ((directorsOf json).bind fun _ => (castOf json).bind fun _ =>
                    (ratingOf json).bind fun _ =>
                      durationOf env json
                        (.str (parseListItem element).durationFromList)).getD
                    (.str (parseListItem element).durationFromList)
            ∧ (extractMovie env element detail).genreTags = .str "N/A") := by
  refine ⟨?_, ?_, ?_, ?_, ?_⟩
  · have hnot : ¬ movies.length ≥ maxCount := by omega
    simp [processPage, hnot]
  · intro items
    exact processPage_length env maxCount items movies (by omega)
  · rintro (rfl | rfl)
    · exact listOnly_of_enrich_eq env element _ (enrich_failed env _ _)
    · exact listOnly_of_enrich_eq env element _ (enrich_unparsable env _ _)
  · rintro pre bad post rfl hpre hbad hparse
    exact listOnly_of_enrich_eq env element _
      (enrich_bad_block env _ pre post bad _ hpre hbad hparse)
  · rintro pre script post json url rfl hurl hpre hsel hparse hthrown
    have hsel' := extractMovie_selected env element pre post script json url
      hurl hpre hsel hparse
    obtain ⟨h1, h2, h3, h4⟩ := assignFromJson_reached env json
      (initialDetails (parseListItem element).durationFromList)
    have h5 := assignFromJson_thrown_genreTags env json _ hthrown
    refine ⟨?_, ?_, ?_, ?_, ?_⟩
    · show (enrich env _ _ _).directors = _
      rw [hsel', h1]; rfl
    · show (enrich env _ _ _).cast = _
      rw [hsel', h2]; rfl
    · show (enrich env _ _ _).rating = _
      rw [hsel', h3]; rfl
    · show (enrich env _ _ _).duration = _
      rw [hsel', h4]; rfl
    · show (enrich env _ _ _).genreTags = _
      rw [hsel', h5]; rfl

/-- C3 amended, at samples: the test item whose block has the duration 120,
pushed onto an empty collection with target 5, keeps the director, cast and
rating assigned before the throw; the test item with a failed detail fetch
keeps the list fields only. -/
theorem failed_enrichment_appends_one_record_witness :
    processPage sampleEnv 5 [⟨testItem, detailPage minutesBlockText⟩] []
        = [] ++ [extractMovie sampleEnv testItem (detailPage minutesBlockText)]
      ∧ (extractMovie sampleEnv testItem (detailPage minutesBlockText)).directors
          = .str "Jane Doe"
      ∧ (extractMovie sampleEnv testItem (detailPage minutesBlockText)).cast
          = .str "Actor A"
      ∧ (extractMovie sampleEnv testItem (detailPage minutesBlockText)).rating
          = .str "8.7"
      ∧ (extractMovie sampleEnv testItem (detailPage minutesBlockText)).duration
          = .str "2h"
      ∧ (extractMovie sampleEnv testItem (detailPage minutesBlockText)).genreTags
          = .str "N/A"
      ∧ listOnly testItem (extractMovie sampleEnv testItem .failed) := by
  have h := failed_enrichment_appends_one_record sampleEnv testItem
    (detailPage minutesBlockText) 5 [] (by decide)
  have hp := h.2.2.2.2
    [{ type := "text/javascript", textContent := "var a = 1;" }]
    { type := "application/ld+json", textContent := minutesBlockText } []
    minutesBlock "https://www.imdb.com/title/tt1234567/" rfl rfl
    (by intro s hs; simp at hs; subst hs; rfl)
    minutesBlock_is_movie_block minutesBlock_parses rfl
  exact ⟨h.1, hp.1, hp.2.1, hp.2.2.1, hp.2.2.2.1, hp.2.2.2.2,
    (failed_enrichment_appends_one_record sampleEnv testItem .failed 5 []
      (by decide)).2.2.1 (Or.inl rfl)⟩

/-! ## The fields of a pushed record -/

theorem extractMovie_fieldsPresent (env : Env) (element : ItemElement)
    (detail : DetailFetch) : (extractMovie env element detail).fieldsPresent := by
  obtain ⟨h1, h2, h3, h4, h5⟩ :=
    enrich_shaped env (parseListItem element).detailURL detail
      (initialDetails (parseListItem element).durationFromList)
      (initialDetails_shaped _)
  refine ⟨rfl, rfl, h1, h2, rfl, h3, h4, h5, ?_⟩
  intro v hv
  simp only [MovieRecord.fields, List.mem_cons, List.mem_singleton, List.not_mem_nil,
    or_false] at hv
  rcases hv with rfl | rfl | rfl | rfl | rfl | rfl | rfl | rfl
  · exact isStr_not_nullish _ rfl
  · exact isStr_not_nullish _ rfl
  · exact isStr_not_nullish _ h1
  · exact stringOrTruthy_not_nullish _ h4
  · exact isStr_not_nullish _ h2
  · exact isStr_not_nullish _ rfl
  · exact isStr_not_nullish _ h3
  · exact stringOrTruthy_not_nullish _ h5

theorem processPage_all (env : Env) (maxCount : Nat) (P : MovieRecord → Prop)
    (hP : ∀ el detail, P (extractMovie env el detail)) (items : List PageItem)
    (movies : List MovieRecord) (hm : ∀ r ∈ movies, P r) :
    ∀ r ∈ processPage env maxCount items movies, P r := by
  intro r hr
  rw [processPage_eq] at hr
  rcases List.mem_append.mp hr with h | h
  · exact hm r h
  · have hmem := List.mem_of_mem_take h
    simp only [parsedRecords, List.mem_map] at hmem
    obtain ⟨item, _, hitem⟩ := hmem
    subst hitem
    exact hP item.element item.detail

theorem scrapeLoop_all (env : Env) (catalog : Nat → ListFetch) (maxCount : Nat)
    (P : MovieRecord → Prop) (hP : ∀ el detail, P (extractMovie env el detail)) :
    ∀ (fuel page : Nat) (movies result : List MovieRecord),
      (∀ r ∈ movies, P r) →
      scrapeLoop env catalog maxCount fuel page movies = some result →
      ∀ r ∈ result, P r := by
  intro fuel
  induction fuel with
  | zero =>
    intro page movies result hm hrun
    unfold scrapeLoop at hrun
    split at hrun
    · simp at hrun
    · cases hrun; exact hm
  | succ f ih =>
    intro page movies result hm hrun
    unfold scrapeLoop at hrun
    split at hrun
    · cases hc : catalog page with
      | failed => simp only [hc] at hrun; cases hrun; exact hm
      | unparsable => simp only [hc] at hrun; cases hrun; exact hm
      | loaded els =>
        simp only [hc] at hrun
        split at hrun
        · cases hrun; exact hm
        · exact ih (page + 1) _ result (processPage_all env maxCount P hP els movies hm) hrun
    · cases hrun; exact hm

/-- C4, refuted as stated: for the block whose genre is an object the pushed
record holds that object, not a string, in `genreTags`. -/
theorem extractMovie_genreTags_not_a_string :
    sampleEnv.jsonParse genreObjectBlockText = some genreObjectBlock
      ∧ (extractMovie sampleEnv testItem (detailPage genreObjectBlockText)).genreTags
          = .obj [("name", .str "Drama")]
      ∧ (extractMovie sampleEnv testItem (detailPage genreObjectBlockText)).genreTags.isStr
          = false :=
  ⟨rfl, rfl, rfl⟩

/-- C4, amended: in every record that `scrapeMovies` returns, as in every
record it pushes, all eight fields are present and none is `null` or
`undefined`; title, release year, rating, cast, plot summary and duration hold
strings; directors and genre tags hold a string or else a truthy value taken
over from the block. -/
theorem scrapeMovies_records_fieldsPresent (env : Env) (catalog : Nat → ListFetch)
    (maxCount fuel : Nat) :
    (∀ element detail, (extractMovie env element detail).fieldsPresent)
      ∧ ∀ movies, scrapeMovies env catalog maxCount fuel = some movies →
          ∀ r ∈ movies, r.fieldsPresent := by
  refine ⟨extractMovie_fieldsPresent env, ?_⟩
  intro movies hrun
  exact scrapeLoop_all env catalog maxCount _ (extractMovie_fieldsPresent env) fuel 1 []
    movies (by simp) hrun

theorem shortCatalog_run :
    scrapeMovies sampleEnv shortCatalog 5 3
      = some ((shortCatalogPages.map (parsedRecords sampleEnv)).flatten) := by
  rfl

/-- C4 amended, at a sample: the records of the two-page catalog. -/
theorem scrapeMovies_records_fieldsPresent_witness :
    ∀ r ∈ (shortCatalogPages.map (parsedRecords sampleEnv)).flatten, r.fieldsPresent :=
  (scrapeMovies_records_fieldsPresent sampleEnv shortCatalog 5 3).2 _ shortCatalog_run

/-! ## The list-item fields -/

theorem textOrNA_rule (node : Option String) : TextRule node (textOrNA node) := by
  refine ⟨?_, ?_, ?_⟩
  · rintro rfl; rfl
  · rintro text rfl h; simp [textOrNA, h]
  · rintro text rfl h; simp [textOrNA, h]

/-- C9, refuted as stated: a heading that is present with only blanks in it
gives the title `"N/A"`, not its trimmed text (the empty string); a rich-text
node that is present but blank gives the plot summary `"N/A"`; and a title link
that is present without an address gives no detail URL. -/
theorem parseListItem_blank_nodes :
    blankItem.h3 = some "   " ∧ trim "   " = ""
      ∧ (parseListItem blankItem).title = "N/A"
      ∧ (parseListItem blankItem).title ≠ trim "   "
      ∧ (parseListItem blankItem).plotSummary = "N/A"
      ∧ blankItem.linkElement = some ""
      ∧ (parseListItem blankItem).detailURL = none := by
  decide

/-- C9, amended: the field extraction of a listing item is a total function
(nothing in it can throw), and title, release year (first metadata span),
list duration (second metadata span) and plot summary (rich-text node when
there is one, plot-attribute node otherwise) each equal the trimmed text of
their node when the node is present and that text is not empty, and `"N/A"`
otherwise; the detail URL is the base origin followed by the link's `href` when
a link with a non-empty `href` is present, and `null` otherwise. -/
theorem parseListItem_fields (element : ItemElement) :
    TextRule element.h3 (parseListItem element).title
      ∧ TextRule element.metadataElements[0]? (parseListItem element).releaseYear
      ∧ TextRule element.metadataElements[1]? (parseListItem element).durationFromList
      ∧ (∀ text, element.htmlContentInnerDiv = some text →
          TextRule (some text) (parseListItem element).plotSummary)
      ∧ (element.htmlContentInnerDiv = none →
          TextRule element.plotTestid (parseListItem element).plotSummary)
      ∧ (element.linkElement = none → (parseListItem element).detailURL = none)
      ∧ (element.linkElement = some "" → (parseListItem element).detailURL = none)
      ∧ (∀ href, element.linkElement = some href → href ≠ "" →
          (parseListItem element).detailURL = some ("https://www.imdb.com" ++ href)) := by
  refine ⟨textOrNA_rule _, textOrNA_rule _, textOrNA_rule _, ?_, ?_, ?_, ?_, ?_⟩
  · intro text h
    have : (parseListItem element).plotSummary = textOrNA (some text) := by
      simp [parseListItem, h]
    rw [this]; exact textOrNA_rule _
  · intro h
    have : (parseListItem element).plotSummary = textOrNA element.plotTestid := by
      simp [parseListItem, h]
    rw [this]; exact textOrNA_rule _
  · intro h; simp [parseListItem, h]
  · intro h; simp [parseListItem, h]
  · intro href h hne; simp [parseListItem, h, hne, BASE_URL]

/-- C9 amended, at a sample: the listing item of the unit tests. -/
theorem parseListItem_fields_witness :
    (parseListItem testItem).title = "The Test Movie"
      ∧ (parseListItem testItem).releaseYear = "2023"
      ∧ (parseListItem testItem).durationFromList = "2h"
      ∧ (parseListItem testItem).plotSummary = "This is a sample plot summary for the movie."
      ∧ (parseListItem testItem).detailURL = some ("https://www.imdb.com" ++ "/title/tt1234567/") :=
  ⟨((parseListItem_fields testItem).1).2.2 "The Test Movie" rfl (by decide),
   ((parseListItem_fields testItem).2.1).2.2 "2023" rfl (by decide),
   ((parseListItem_fields testItem).2.2.1).2.2 "2h" rfl (by decide),
   (((parseListItem_fields testItem).2.2.2.2.1) rfl).2.2
     "This is a sample plot summary for the movie." rfl (by decide),
   (parseListItem_fields testItem).2.2.2.2.2.2.2 "/title/tt1234567/" rfl (by decide)⟩

/-! ## Detail pages without a usable block -/

/-- C6: when no script of the detail page is a structured-data block with the
"Movie" marker, or when the first such block is not JSON, the record keeps
rating, directors, cast and genre tags at `"N/A"` and the list-page duration;
in the second case the scripts after the malformed block play no part, whatever
they are: the record is the one of the page cut after that block. -/
theorem enrichment_without_usable_block (env : Env) (element : ItemElement)
    (pre post : List Script) (hpre : ∀ s ∈ pre, isMovieBlock s = false) :
    listOnly element (extractMovie env element (.loaded pre))
      ∧ ∀ bad, isMovieBlock bad = true → env.jsonParse bad.textContent = none →
          listOnly element (extractMovie env element (.loaded (pre ++ bad :: post)))
          ∧ extractMovie env element (.loaded (pre ++ bad :: post))
              = extractMovie env element (.loaded (pre ++ [bad])) := by
  refine ⟨listOnly_of_enrich_eq env element _ (enrich_no_block env _ pre _ hpre), ?_⟩
  intro bad hbad hparse
  refine ⟨listOnly_of_enrich_eq env element _
    (enrich_bad_block env _ pre post bad _ hpre hbad hparse), ?_⟩
  unfold extractMovie
  simp only [enrich_bad_block env _ pre post bad _ hpre hbad hparse,
    enrich_bad_block env _ pre [] bad _ hpre hbad hparse]

/-- C6 at a sample: an ordinary script, then a block with the marker that is
not JSON, then the valid block of the unit tests. -/
theorem enrichment_without_usable_block_witness :
    listOnly testItem (extractMovie sampleEnv testItem
      (.loaded ([{ type := "text/javascript", textContent := "var a = 1;" }]
        ++ { type := "application/ld+json", textContent := brokenBlockText }
          :: [{ type := "application/ld+json", textContent := testBlockText }]))) :=
  ((enrichment_without_usable_block sampleEnv testItem
      [{ type := "text/javascript", textContent := "var a = 1;" }]
      [{ type := "application/ld+json", textContent := testBlockText }]
      (by intro s hs; simp at hs; subst hs; rfl)).2
    { type := "application/ld+json", textContent := brokenBlockText } rfl rfl).1

/-! ## Decoding the structured block -/

theorem getProp_eq_some (v x : JsVal) (key : String) (h : v.getProp key = some x) :
    v.nullish = false ∧ x = v.field key := by
  unfold JsVal.getProp at h
  split at h
  · simp at h
  · rename_i hn
    simp only [Option.some.injEq] at h
    exact ⟨by simpa using hn, h.symm⟩

theorem getProp_of_not_nullish (v : JsVal) (key : String) (h : v.nullish = false) :
    v.getProp key = some (v.field key) := by
  simp [JsVal.getProp, h]

theorem memberNames_eq (members : List JsVal) :
    ∀ names, memberNames members = some names →
      names = members.map fun m => m.field "name" := by
  induction members with
  | nil => intro names h; simp [memberNames] at h; simp [h]
  | cons d rest ih =>
    intro names h
    unfold memberNames at h
    cases hd : d.getProp "name" with
    | none => simp [hd] at h
    | some name =>
      cases hr : memberNames rest with
      | none => simp [hd, hr] at h
      | some ns =>
        simp only [hd, hr, Option.some.injEq] at h
        subst h
        simp [(getProp_eq_some _ _ _ hd).2, ih ns hr]

theorem namesJoined_eq (members : List JsVal) (v : JsVal)
    (h : namesJoined members = some v) :
    ∃ texts, JsVal.elemStrs (members.map fun m => m.field "name") = some texts
      ∧ v = .str (String.intercalate ", " texts) := by
  unfold namesJoined at h
  cases hm : memberNames members with
  | none => simp [hm] at h
  | some names =>
    simp only [hm] at h
    have hn := memberNames_eq members names hm
    subst hn
    unfold JsVal.join at h
    cases he : JsVal.elemStrs (members.map fun m => m.field "name") with
    | none => simp [he] at h
    | some texts =>
      simp only [he, Option.map_some', Option.some.injEq] at h
      exact ⟨texts, rfl, h.symm⟩

/-- The five right-hand sides all have a value exactly when no assignment of
the block throws, and then they are the values of the five variables. -/
theorem assignFromJson_not_thrown (env : Env) (json : JsVal) (st : Details)
    (h : (assignFromJson env json st).2 = false) :
    directorsOf json = some (assignFromJson env json st).1.directors
      ∧ castOf json = some (assignFromJson env json st).1.cast
      ∧ ratingOf json = some (assignFromJson env json st).1.rating
      ∧ durationOf env json st.duration = some (assignFromJson env json st).1.duration
      ∧ genreTagsOf json = some (assignFromJson env json st).1.genreTags := by
  revert h
  unfold assignFromJson
  cases directorsOf json with
  | none => intro h; simp at h
  | some directors =>
    cases castOf json with
    | none => intro h; simp at h
    | some cast =>
      cases ratingOf json with
      | none => intro h; simp at h
      | some rating =>
        cases durationOf env json st.duration with
        | none => intro h; simp at h
        | some duration =>
          cases genreTagsOf json with
          | none => intro h; simp at h
          | some genreTags => intro _; exact ⟨rfl, rfl, rfl, rfl, rfl⟩

theorem directorsOf_not_nullish (json v : JsVal) (h : directorsOf json = some v) :
    json.nullish = false := by
  unfold directorsOf at h
  cases hg : json.getProp "director" with
  | none => simp [hg] at h
  | some d => exact (getProp_eq_some _ _ _ hg).1

/-- C5, refuted as stated: the block whose duration is the number 7200 parses
and has a genre list, yet the step does not go through (the assignment to
`duration` throws) and the genre tags stay `"N/A"` instead of the joined list. -/
theorem assignFromJson_numeric_duration_loses_genre :
    secondsBlock.field "genre" = .arr [.str "Action", .str "Thriller"]
      ∧ JsVal.join ", " [.str "Action", .str "Thriller"] = some "Action, Thriller"
      ∧ (assignFromJson sampleEnv secondsBlock (initialDetails "2h")).2 = true
      ∧ (assignFromJson sampleEnv secondsBlock (initialDetails "2h")).1.genreTags
          = .str "N/A"
      ∧ (assignFromJson sampleEnv secondsBlock (initialDetails "2h")).1.genreTags
          ≠ .str "Action, Thriller" := by
  refine ⟨rfl, rfl, rfl, rfl, ?_⟩
  have h : (assignFromJson sampleEnv secondsBlock (initialDetails "2h")).1.genreTags
      = .str "N/A" := rfl
  rw [h]
  intro hne
  exact absurd (JsVal.str.inj hne) (by decide)

/-- C5, amended: for every parsed block on which none of the five assignments
throws, directors is the members' names joined with `", "` when the director
field is a list, the object's name when it is a single object with a truthy
name, and `"N/A"` otherwise; cast is the members' names joined with `", "` when
the actor field is a list and `"N/A"` otherwise; rating is the stringified
rating value when there is one and its text is not empty, and `"N/A"`
otherwise; genre tags is the list joined with `", "`, or the genre value itself
when it is truthy and not a list, or `"N/A"`.  The block of the unit tests
yields directors "Jane Doe", cast "Actor A, Actor B", rating "8.7", duration
"2h" and genre tags "Action, Thriller". -/
theorem assignFromJson_fields (env : Env) (json : JsVal) (st : Details)
    (hok : (assignFromJson env json st).2 = false) :
    (∀ members, json.field "director" = .arr members →
        ∃ texts, JsVal.elemStrs (members.map fun m => m.field "name") = some texts
          ∧ (assignFromJson env json st).1.directors
              = .str (String.intercalate ", " texts))
      ∧ (∀ props, json.field "director" = .obj props →
          (JsVal.lookup "name" props).truthy = true →
          (assignFromJson env json st).1.directors = JsVal.lookup "name" props)
      ∧ (∀ props, json.field "director" = .obj props →
          (JsVal.lookup "name" props).truthy = false →
          (assignFromJson env json st).1.directors = .str "N/A")
      ∧ ((∀ members, json.field "director" ≠ .arr members) →
          (∀ props, json.field "director" ≠ .obj props) →
          (assignFromJson env json st).1.directors = .str "N/A")
      ∧ (∀ members, json.field "actor" = .arr members →
          ∃ texts, JsVal.elemStrs (members.map fun m => m.field "name") = some texts
            ∧ (assignFromJson env json st).1.cast
                = .str (String.intercalate ", " texts))
      ∧ ((∀ members, json.field "actor" ≠ .arr members) →
          (assignFromJson env json st).1.cast = .str "N/A")
      ∧ (((json.field "aggregateRating").optProp "ratingValue").nullish = true →
          (assignFromJson env json st).1.rating = .str "N/A")
      ∧ (∀ text, ((json.field "aggregateRating").optProp "ratingValue").nullish = false →
          ((json.field "aggregateRating").optProp "ratingValue").toStr = some text →
          (assignFromJson env json st).1.rating
            = .str (if text = "" then "N/A" else text))
      ∧ (∀ items, json.field "genre" = .arr items →
          ∃ text, JsVal.join ", " items = some text
            ∧ (assignFromJson env json st).1.genreTags = .str text)
      ∧ ((∀ items, json.field "genre" ≠ .arr items) →
          (json.field "genre").truthy = true →
          (assignFromJson env json st).1.genreTags = json.field "genre")
      ∧ ((∀ items, json.field "genre" ≠ .arr items) →
          (json.field "genre").truthy = false →
          (assignFromJson env json st).1.genreTags = .str "N/A")
      ∧ (env.toLowerCase "2H" = "2h" →
          assignFromJson env testBlock st
            = ({ rating := .str "8.7", directors := .str "Jane Doe",
                 cast := .str "Actor A, Actor B", duration := .str "2h",
                 genreTags := .str "Action, Thriller" }, false)) := by
  obtain ⟨hd, hc, hr, _, hg⟩ := assignFromJson_not_thrown env json st hok
  have hnn : json.nullish = false := directorsOf_not_nullish _ _ hd
  generalize (assignFromJson env json st).1 = out at hd hc hr hg ⊢
  have gp : ∀ key, json.getProp key = some (json.field key) :=
    fun key => getProp_of_not_nullish json key hnn
  unfold directorsOf at hd
  unfold castOf at hc
  unfold ratingOf at hr
  unfold genreTagsOf at hg
  rw [gp] at hd hc hr hg
  refine ⟨?_, ?_, ?_, ?_, ?_, ?_, ?_, ?_, ?_, ?_, ?_, ?_⟩
  · intro members hm
    rw [hm] at hd
    exact namesJoined_eq members _ hd
  · intro props hp ht
    rw [hp] at hd
    simp only [JsVal.optProp, JsVal.nullish, JsVal.field, Bool.false_eq_true, if_false,
      ht, if_true, Option.some.injEq] at hd
    exact hd.symm
  · intro props hp ht
    rw [hp] at hd
    simp only [JsVal.optProp, JsVal.nullish, JsVal.field, Bool.false_eq_true, if_false,
      ht, Option.some.injEq] at hd
    exact hd.symm
  · intro hna hno
    cases hf : json.field "director" with
    | arr members => exact absurd hf (hna members)
    | obj props => exact absurd hf (hno props)
    | undefined => rw [hf] at hd; simpa [JsVal.optProp, JsVal.nullish, JsVal.truthy] using hd.symm
    | null => rw [hf] at hd; simpa [JsVal.optProp, JsVal.nullish, JsVal.truthy] using hd.symm
    | bool b =>
      rw [hf] at hd
      simpa [JsVal.optProp, JsVal.nullish, JsVal.field, JsVal.truthy] using hd.symm
    | num n =>
      rw [hf] at hd
      simpa [JsVal.optProp, JsVal.nullish, JsVal.field, JsVal.truthy] using hd.symm
    | str s =>
      rw [hf] at hd
      simpa [JsVal.optProp, JsVal.nullish, JsVal.field, JsVal.truthy] using hd.symm
  · intro members hm
    rw [hm] at hc
    exact namesJoined_eq members _ hc
  · intro hna
    cases hf : json.field "actor" with
    | arr members => exact absurd hf (hna members)
    | obj props => rw [hf] at hc; simpa using hc.symm
    | undefined => rw [hf] at hc; simpa using hc.symm
    | null => rw [hf] at hc; simpa using hc.symm
    | bool b => rw [hf] at hc; simpa using hc.symm
    | num n => rw [hf] at hc; simpa using hc.symm
    | str s => rw [hf] at hc; simpa using hc.symm
  · intro hn
    simp only [hn, if_true, Option.some.injEq] at hr
    exact hr.symm
  · intro text hn ht
    simp only [hn, Bool.false_eq_true, if_false, ht, Option.some.injEq] at hr
    exact hr.symm
  · intro items hi
    rw [hi] at hg
    cases hj : JsVal.join ", " items with
    | none => simp [hj] at hg
    | some text =>
      simp only [hj, Option.map_some', Option.some.injEq] at hg
      exact ⟨text, rfl, hg.symm⟩
  · intro hna ht
    cases hf : json.field "genre" with
    | arr items => exact absurd hf (hna items)
    | obj props => rw [hf] at hg; simpa [JsVal.truthy] using hg.symm
    | undefined => rw [hf] at ht; simp [JsVal.truthy] at ht
    | null => rw [hf] at ht; simp [JsVal.truthy] at ht
    | bool b => rw [hf] at hg ht; simpa [ht] using hg.symm
    | num n => rw [hf] at hg ht; simpa [ht] using hg.symm
    | str s => rw [hf] at hg ht; simpa [ht] using hg.symm
  · intro hna ht
    cases hf : json.field "genre" with
    | arr items => exact absurd hf (hna items)
    | obj props => rw [hf] at ht; simp [JsVal.truthy] at ht
    | undefined => rw [hf] at hg; simpa [JsVal.truthy] using hg.symm
    | null => rw [hf] at hg; simpa [JsVal.truthy] using hg.symm
    | bool b => rw [hf] at hg ht; simpa [ht] using hg.symm
    | num n => rw [hf] at hg ht; simpa [ht] using hg.symm
    | str s => rw [hf] at hg ht; simpa [ht] using hg.symm
  · intro hlow
    have h1 : directorsOf testBlock = some (.str "Jane Doe") := rfl
    have h2 : castOf testBlock = some (.str "Actor A, Actor B") := rfl
    have h3 : ratingOf testBlock = some (.str "8.7") := rfl
    have h4 : durationOf env testBlock st.duration = some (.str (env.toLowerCase "2H")) := rfl
    have h5 : genreTagsOf testBlock = some (.str "Action, Thriller") := rfl
    simp only [assignFromJson, h1, h2, h3, h4, h5, hlow]

/-- C5 amended, at a sample: the block of the unit tests. -/
theorem assignFromJson_fields_witness :
    (assignFromJson sampleEnv testBlock (initialDetails "2h")).2 = false
      ∧ assignFromJson sampleEnv testBlock (initialDetails "2h")
          = ({ rating := .str "8.7", directors := .str "Jane Doe",
               cast := .str "Actor A, Actor B", duration := .str "2h",
               genreTags := .str "Action, Thriller" }, false) :=
  ⟨rfl, (assignFromJson_fields sampleEnv testBlock (initialDetails "2h") rfl).2.2.2.2.2.2.2.2.2.2.2
    rfl⟩

/-! ## The duration of the record -/

theorem assignFromJson_duration_absent (env : Env) (json : JsVal) (st : Details)
    (habs : json.field "duration" = .undefined) :
    (assignFromJson env json st).1.duration = st.duration := by
  unfold assignFromJson
  cases hd : directorsOf json with
  | none => rfl
  | some directors =>
    have hnn := directorsOf_not_nullish _ _ hd
    have hdur : durationOf env json st.duration = some st.duration := by
      simp [durationOf, getProp_of_not_nullish json "duration" hnn, habs, JsVal.truthy]
    cases castOf json with
    | none => rfl
    | some cast =>
      cases ratingOf json with
      | none => rfl
      | some rating =>
        simp only [hdur]
        cases genreTagsOf json with
        | none => rfl
        | some genreTags => rfl

theorem assignFromJson_duration_text (env : Env) (json : JsVal) (st : Details)
    (d : String) (hdur : json.field "duration" = .str d) (hne : d ≠ "")
    (hd : directorsOf json ≠ none) (hc : castOf json ≠ none) (hr : ratingOf json ≠ none) :
    (assignFromJson env json st).1.duration
      = .str (env.toLowerCase (removeFirst d "PT")) := by
  unfold assignFromJson
  cases hd' : directorsOf json with
  | none => exact absurd hd' hd
  | some directors =>
    have hnn := directorsOf_not_nullish _ _ hd'
    have hval : durationOf env json st.duration
        = some (.str (env.toLowerCase (removeFirst d "PT"))) := by
      simp [durationOf, getProp_of_not_nullish json "duration" hnn, hdur, JsVal.truthy, hne]
    cases hc' : castOf json with
    | none => exact absurd hc' hc
    | some cast =>
      cases hr' : ratingOf json with
      | none => exact absurd hr' hr
      | some rating =>
        simp only [hval]
        cases genreTagsOf json with
        | none => rfl
        | some genreTags => rfl

theorem removeFirst_leading (d : String) (h : "PT".data.isPrefixOf d.data = true) :
    removeFirst d "PT" = dropLeadingPT d := by
  unfold removeFirst dropLeadingPT
  rw [if_pos h]
  congr 1
  cases hdata : d.data with
  | nil => rfl
  | cons c cs =>
    rw [hdata] at h
    simp only [removeFirstChars, h, if_true]
    rfl

theorem extractMovie_duration_selected (env : Env) (element : ItemElement)
    (pre post : List Script) (script : Script) (json : JsVal) (url : String)
    (hurl : (parseListItem element).detailURL = some url)
    (hpre : ∀ s ∈ pre, isMovieBlock s = false) (hsel : isMovieBlock script = true)
    (hparse : env.jsonParse script.textContent = some json) :
    (extractMovie env element (.loaded (pre ++ script :: post))).duration
      = (assignFromJson env json
          (initialDetails (parseListItem element).durationFromList)).1.duration := by
  show (enrich env (parseListItem element).detailURL (.loaded (pre ++ script :: post))
      (initialDetails (parseListItem element).durationFromList)).duration = _
  rw [hurl]
  simp only [enrich]
  rw [scanScripts_selected env pre post script json _ hpre hsel hparse]

/-- C10, refuted as stated: for the duration text "APT30M" the record's
duration is "a30m", the `PT` inside the text being removed, whereas removing a
leading `PT` only and lower-casing gives "apt30m". -/
theorem duration_removes_inner_designator :
    sampleEnv.jsonParse innerDesignatorBlockText = some innerDesignatorBlock
      ∧ innerDesignatorBlock.field "duration" = .str "APT30M"
      ∧ (extractMovie sampleEnv testItem (detailPage innerDesignatorBlockText)).duration
          = .str "a30m"
      ∧ sampleEnv.toLowerCase (dropLeadingPT "APT30M") = "apt30m"
      ∧ (extractMovie sampleEnv testItem (detailPage innerDesignatorBlockText)).duration
          ≠ .str (sampleEnv.toLowerCase (dropLeadingPT "APT30M")) := by
  refine ⟨rfl, rfl, rfl, by decide, ?_⟩
  have h : (extractMovie sampleEnv testItem (detailPage innerDesignatorBlockText)).duration
      = .str "a30m" := rfl
  rw [h]
  intro hne
  exact absurd (JsVal.str.inj hne) (by decide)

/-- C10, amended: for an item with a detail link whose detail page's first
qualifying block parses, the record's duration is the list-page duration when
the block has no duration field; when the block has a non-empty duration
string `d` and the assignments before it (directors, cast, rating) do not
throw, it is the lower-casing of `d` with the first occurrence of `PT` removed,
wherever in `d` it occurs, which for a `d` that starts with `PT` is `d` without
that leading `PT`. -/
theorem extractMovie_duration (env : Env) (element : ItemElement)
    (pre post : List Script) (script : Script) (json : JsVal) (url : String)
    (hurl : (parseListItem element).detailURL = some url)
    (hpre : ∀ s ∈ pre, isMovieBlock s = false) (hsel : isMovieBlock script = true)
    (hparse : env.jsonParse script.textContent = some json) :
    (json.field "duration" = .undefined →
        (extractMovie env element (.loaded (pre ++ script :: post))).duration
          = .str (parseListItem element).durationFromList)
      ∧ (∀ d, json.field "duration" = .str d → d ≠ "" →
          directorsOf json ≠ none → castOf json ≠ none → ratingOf json ≠ none →
          (extractMovie env element (.loaded (pre ++ script :: post))).duration
            = .str (env.toLowerCase (removeFirst d "PT")))
      ∧ (∀ d, "PT".data.isPrefixOf d.data = true →
          removeFirst d "PT" = dropLeadingPT d) := by
  have hsel' := extractMovie_duration_selected env element pre post script json url
    hurl hpre hsel hparse
  refine ⟨?_, ?_, removeFirst_leading⟩
  · intro habs
    rw [hsel', assignFromJson_duration_absent env json _ habs]
    rfl
  · intro d hdur hne hd hc hr
    rw [hsel', assignFromJson_duration_text env json _ d hdur hne hd hc hr]

theorem testBlock_is_movie_block :
    isMovieBlock { type := "application/ld+json", textContent := testBlockText } = true := by
  rfl

theorem testBlock_parses : sampleEnv.jsonParse testBlockText = some testBlock := by
  simp [sampleEnv]

/-- C10 amended, at a sample: the test item with the block of the unit tests,
whose duration is "PT2H". -/
theorem extractMovie_duration_witness :
    (extractMovie sampleEnv testItem (detailPage testBlockText)).duration
        = .str (sampleEnv.toLowerCase (removeFirst "PT2H" "PT"))
      ∧ removeFirst "PT2H" "PT" = dropLeadingPT "PT2H"
      ∧ sampleEnv.toLowerCase (removeFirst "PT2H" "PT") = "2h" := by
  have h := extractMovie_duration sampleEnv testItem
    [{ type := "text/javascript", textContent := "var a = 1;" }] []
    { type := "application/ld+json", textContent := testBlockText } testBlock
    "https://www.imdb.com/title/tt1234567/" rfl
    (by intro s hs; simp at hs; subst hs; rfl) testBlock_is_movie_block testBlock_parses
  refine ⟨h.2.1 "PT2H" rfl (by decide) ?_ ?_ ?_, h.2.2 "PT2H" (by decide), by decide⟩
  · simp [show directorsOf testBlock = some (.str "Jane Doe") from rfl]
  · simp [show castOf testBlock = some (.str "Actor A, Actor B") from rfl]
  · simp [show ratingOf testBlock = some (.str "8.7") from rfl]

/-! ## Saving -/

/-- C7, on the failing input: for a record whose title is `The "Best" Movie`
the CSV branch writes the header row and one row, but the title cell carries
the two double quotes of the title as they are, between the enclosing quotes;
the properly escaped cell is a different text.  Only the double quotes of the
plot summary are taken care of (turned into single quotes). -/
theorem saveToFile_csv_title_quotes_unescaped :
    saveToFile sampleSaveEnv [quotedTitleRecord] "csv"
        = [.writeFile "output.csv"
            ("title,releaseYear,rating,duration,genreTags,plotSummary,directors,cast\n"
              ++ "\"The \"Best\" Movie\",2023,8.7,2h,\"Action, Thriller\","
              ++ "\"A 'sample' plot.\",\"Jane Doe\",\"Actor A, Actor B\""),
           .log "File saved to output.csv"]
      ∧ quoted "The \"Best\" Movie" = "\"The \"Best\" Movie\""
      ∧ escapedQuoted "The \"Best\" Movie" = "\"The \"\"Best\"\" Movie\""
      ∧ quoted "The \"Best\" Movie" ≠ escapedQuoted "The \"Best\" Movie" := by
  refine ⟨by rfl, by decide, by decide, by decide⟩

/-- C8, refuted as stated: with the format "xml" `saveToFile` has no effect at
all; in particular it logs no error. -/
theorem saveToFile_xml_is_silent :
    saveToFile sampleSaveEnv [quotedTitleRecord] "xml" = []
      ∧ ¬ ∃ msg, Effect.log msg ∈ saveToFile sampleSaveEnv [quotedTitleRecord] "xml" := by
  have h : saveToFile sampleSaveEnv [quotedTitleRecord] "xml" = [] := by decide
  refine ⟨h, ?_⟩
  rw [h]
  simp

/-- C8, amended: for every format other than "json" and "csv", `saveToFile`
writes no file and logs nothing: it returns without any effect.  The only
caller, `main`, passes "csv" or "json" whatever the command line holds. -/
theorem saveToFile_other_format (senv : SaveEnv) (data : List MovieRecord)
    (format : String) (hjson : format ≠ "json") (hcsv : format ≠ "csv") :
    saveToFile senv data format = []
      ∧ ∀ arg, mainFormat arg = "csv" ∨ mainFormat arg = "json" := by
  refine ⟨?_, ?_⟩
  · simp [saveToFile, hjson, hcsv]
  · intro arg
    unfold mainFormat
    split
    · exact Or.inl rfl
    · exact Or.inr rfl

/-- C8 amended, at a sample: the format "yaml". -/
theorem saveToFile_other_format_witness :
    saveToFile sampleSaveEnv [quotedTitleRecord] "yaml" = [] :=
  (saveToFile_other_format sampleSaveEnv [quotedTitleRecord] "yaml"
    (by decide) (by decide)).1

end MoviesExtract
